import Mathlib

/-!
# Verification of the Gemini CLI turn controller (`useGeminiStream`)

Shallow embedding of the turn controller and stream event processor of
`useGeminiStream` (the hook that drives one conversational turn of the
Gemini CLI frontend).  Stateful React hook code is embedded as explicit
state passing over `GeminiStreamState`; the `void submitQuery(...)`
fire-and-forget re-entries are recorded as emitted `SubmitAction`s rather
than executed inline, matching the fact that the source schedules them and
returns.  History timestamps are not modelled: the History Store is
append-only and ordered by call sequence, so committed history is a list.
Text handled by the content-buffer splitter is modelled as `List Char`
(the source indexes JS strings by code units).
-/

namespace GeminiCLI

/-- One atomic element of a `PartListUnion`: either a plain string part or a
structured (non-string) part such as a function response, abstracted by a
payload string. -/
inductive PartItem : Type
  | text (s : String)
  | data (s : String)
deriving DecidableEq

/-- `PartListUnion` from `@google/genai`: a single part or an array of parts.
`submitQuery` distinguishes plain-string queries (`typeof query === 'string'`)
from everything else; only `.single (.text _)` is a plain string. -/
inductive PartListUnion : Type
  | single (p : PartItem)
  | array (ps : List PartItem)
deriving DecidableEq

/-- `mergePartListUnions` from the source: flattens a list of
`PartListUnion`s into one array, spreading array items and pushing single
items. -/
def mergePartListUnions (list : List PartListUnion) : List PartItem :=
  list.flatMap fun item =>
    match item with
    | .array ps => ps
    | .single p => [p]

/-- Scheduler-side status tag of a tracked tool call
(`validating|scheduled|awaiting_approval|executing|success|error|cancelled`). -/
inductive ToolStatus : Type
  | validating
  | scheduled
  | awaitingApproval
  | executing
  | success
  | error
  | cancelled
deriving DecidableEq

/-- A tracked tool call as read by this core: its id, scheduler status, the
`responseSubmittedToGemini` flag and the response payload
(`response.responseParts`, meaningful on terminal statuses). -/
structure TrackedToolCall : Type where
  callId : String
  status : ToolStatus
  responseSubmittedToGemini : Bool
  responseParts : PartListUnion
deriving DecidableEq

/-- `ToolCallRequestInfo`: a tool call requested by the model (or a slash
command), to be handed to the external Tool Scheduler. -/
structure ToolCallRequestInfo : Type where
  callId : String
  name : String
deriving DecidableEq

/-- Display-layer status of one tool call inside a `tool_group` history item
(`ToolCallStatus` from `../types.js`, mirrored from the import). -/
inductive ToolCallStatus : Type
  | Pending
  | Confirming
  | Executing
  | Success
  | Error
  | Canceled
deriving DecidableEq

/-- One tool entry of a `tool_group` history item
(`IndividualToolCallDisplay`, mirrored from the import). -/
structure IndividualToolCallDisplay : Type where
  callId : String
  status : ToolCallStatus
deriving DecidableEq

/-- A history item (committed or pending): user text, streaming model text
(`gemini` / `gemini_content`), info and error notices, and tool-call groups. -/
inductive HistoryItemData : Type
  | user (text : String)
  | gemini (text : List Char)
  | geminiContent (text : List Char)
  | info (text : String)
  | errorItem (text : String)
  | toolGroup (tools : List IndividualToolCallDisplay)
deriving DecidableEq

/-- `pendingHistoryItemRef.current?.type === 'gemini' || === 'gemini_content'`. -/
def HistoryItemData.isGeminiKind : HistoryItemData → Bool
  | .gemini _ => true
  | .geminiContent _ => true
  | _ => false

/-- The three-valued `StreamingState` of the UI. -/
inductive StreamingState : Type
  | Idle
  | Responding
  | WaitingForConfirmation
deriving DecidableEq

/-- `StreamProcessingStatus` from the source. -/
inductive StreamProcessingStatus : Type
  | Completed
  | UserCancelled
  | Error
deriving DecidableEq

/-- A server stream event (`ServerGeminiStreamEvent`), tagged as in the
source's event `switch`. -/
inductive GeminiEvent : Type
  | thought (v : String)
  | content (v : List Char)
  | toolCallRequest (v : ToolCallRequestInfo)
  | userCancelled
  | errorEv (msg : String)
  | chatCompressed (originalTokenCount newTokenCount : Option Nat)
  | usageMetadata (v : Nat)
  | toolCallConfirmation
  | toolCallResponse
deriving DecidableEq

/-- A fire-and-forget re-entry `void submitQuery(query, {isContinuation})`
emitted by the controller (recorded, not executed inline). -/
inductive SubmitAction : Type
  | resubmit (query : PartListUnion) (isContinuation : Bool)
deriving DecidableEq

/-- The mutable state owned by (or observed by) `useGeminiStream`:
the Message Queue, the per-turn cancellation flag, the `isResponding` flag,
the latest thought, the single pending display item, committed history, the
externally-owned tracked tool calls, the abort controller (presence, whether
its token was signalled, and a token id used to identify the turn's signal),
and logs of the observable calls to external collaborators (turns started,
streams opened, scheduler batches with their abort token, usage events,
auth-error notifications). -/
structure GeminiStreamState : Type where
  messageQueue : List String
  turnCancelled : Bool
  isResponding : Bool
  thought : Option String
  pendingItem : Option HistoryItemData
  history : List HistoryItemData
  toolCalls : List TrackedToolCall
  hasAbortController : Bool
  abortSignalled : Bool
  currentAbortToken : Nat
  nextAbortToken : Nat
  turnCounter : Nat
  streamsOpened : Nat
  scheduledBatches : List (List ToolCallRequestInfo × Nat)
  usageLog : List Nat
  authErrors : Nat
deriving DecidableEq

/-- The derived streaming state (source lines 165–188): a pure projection of
`isResponding` and the tracked tool calls. -/
def streamingState (isResponding : Bool) (toolCalls : List TrackedToolCall) :
    StreamingState :=
  if toolCalls.any fun tc => tc.status == ToolStatus.awaitingApproval then
    StreamingState.WaitingForConfirmation
  else if isResponding ||
      (toolCalls.any fun tc =>
        tc.status == ToolStatus.executing ||
        tc.status == ToolStatus.scheduled ||
        tc.status == ToolStatus.validating ||
        ((tc.status == ToolStatus.success ||
          tc.status == ToolStatus.error ||
          tc.status == ToolStatus.cancelled) &&
          !tc.responseSubmittedToGemini)) then
    StreamingState.Responding
  else
    StreamingState.Idle

/-- Modelled from the spec: `findLastSafeSplitPoint` lives in
`../utils/markdownUtilities.js`, which is not among the sources; the spec
(§4.3 Content Buffer Splitter) constrains it only by its contract
`split(buffer) → index` with `0 ≤ index ≤ length(buffer)`.  We therefore
model the splitter as an abstract function parameter, and `SplitContract`
states the spec's range contract for it. -/
def SplitContract (split : List Char → Nat) : Prop :=
  ∀ b : List Char, split b ≤ b.length

/-- `setPendingHistoryItem((item) => ({type: item?.type as
'gemini'|'gemini_content', text}))`: keep the current pending item's
gemini-kind type tag, with new text.  (At every use site the pending item is
already gemini-kind, so the `'gemini'` default for other shapes is
unreachable.) -/
def setGeminiText (p : Option HistoryItemData) (t : List Char) :
    HistoryItemData :=
  match p with
  | some (HistoryItemData.geminiContent _) => HistoryItemData.geminiContent t
  | _ => HistoryItemData.gemini t

/-- The tail of `handleContentEvent` (source lines 336–368): run the
Content Buffer Splitter on the accumulated buffer `nb`; if the split point
is the whole length, keep `nb` as the live pending item; otherwise flush
`nb[0:splitPoint]` to committed history and keep `nb[splitPoint:]` as the
new live `gemini_content` pending item.  Returns the new buffer plus the new
state. -/
def contentSplitPhase (split : List Char → Nat) (nb : List Char)
    (s : GeminiStreamState) : List Char × GeminiStreamState :=
  let splitPoint := split nb
  if splitPoint = nb.length then
    (nb, { s with pendingItem := some (setGeminiText s.pendingItem nb) })
  else
    let beforeText := nb.take splitPoint
    let afterText := nb.drop splitPoint
    (afterText,
      { s with
        history := s.history ++ [setGeminiText s.pendingItem beforeText]
        pendingItem := some (HistoryItemData.geminiContent afterText) })

/-- `handleContentEvent` (source lines 315–371): no-op returning an empty
buffer after cancellation; otherwise append the delta to the buffer,
flushing any non-gemini pending item first (in which case the buffer
restarts as the delta alone), then run the split phase. -/
def handleContentEvent (split : List Char → Nat) (eventValue : List Char)
    (currentGeminiMessageBuffer : List Char) (s : GeminiStreamState) :
    List Char × GeminiStreamState :=
  if s.turnCancelled then
    -- Prevents additional output after a user initiated cancel.
    ([], s)
  else
    let nb0 := currentGeminiMessageBuffer ++ eventValue
    let startFresh : Bool :=
      match s.pendingItem with
      | some p => !p.isGeminiKind
      | none => true
    if startFresh then
      let s1 :=
        match s.pendingItem with
        | some p => { s with history := s.history ++ [p] }
        | none => s
      contentSplitPhase split eventValue
        { s1 with pendingItem := some (HistoryItemData.gemini []) }
    else
      contentSplitPhase split nb0 s

/-- The per-tool status remap of `handleUserCancelledEvent`: pending,
confirming and executing entries of the pending tool group are forced to
`Canceled`. -/
def toolCancelMap (t : IndividualToolCallDisplay) : IndividualToolCallDisplay :=
  if t.status = ToolCallStatus.Pending ∨ t.status = ToolCallStatus.Confirming ∨
      t.status = ToolCallStatus.Executing then
    { t with status := ToolCallStatus.Canceled }
  else t

/-- `handleUserCancelledEvent` (source lines 373–405): no-op once the turn is
cancelled; otherwise flush the pending item (remapping live tool-group
entries to `Canceled`), append the cancellation notice and stop responding. -/
def handleUserCancelledEvent (s : GeminiStreamState) : GeminiStreamState :=
  if s.turnCancelled then s
  else
    let s1 :=
      match s.pendingItem with
      | some (HistoryItemData.toolGroup tools) =>
        { s with
          history :=
            s.history ++ [HistoryItemData.toolGroup (tools.map toolCancelMap)]
          pendingItem := none }
      | some p => { s with history := s.history ++ [p], pendingItem := none }
      | none => s
    { s1 with
      history := s1.history ++ [HistoryItemData.info "User cancelled the request."]
      isResponding := false }

/-- External error formatter `parseAndFormatApiError` (out-of-scope
collaborator, §6): modelled as passing the backend's message through. -/
def parseAndFormatApiError (msg : String) : String := msg

/-- `handleErrorEvent` (source lines 407–425): flush any pending item, then
append a formatted error entry.  Note: not guarded by the cancellation
flag. -/
def handleErrorEvent (msg : String) (s : GeminiStreamState) :
    GeminiStreamState :=
  let s1 :=
    match s.pendingItem with
    | some p => { s with history := s.history ++ [p], pendingItem := none }
    | none => s
  { s1 with
    history := s1.history ++ [HistoryItemData.errorItem (parseAndFormatApiError msg)] }

/-- The informational text of a chat-compression notice (the model name is
an out-of-scope configuration detail). -/
def compressionInfoText (originalTokenCount newTokenCount : Option Nat) :
    String :=
  "IMPORTANT: This conversation approached the input token limit. " ++
    "A compressed context will be sent for future messages (compressed from: " ++
    (match originalTokenCount with
     | some n => toString n
     | none => "unknown") ++ " to " ++
    (match newTokenCount with
     | some n => toString n
     | none => "unknown") ++ " tokens)."

/-- `handleChatCompressionEvent` (source lines 427–441): append an info
entry.  Note: not guarded by the cancellation flag. -/
def handleChatCompressionEvent (originalTokenCount newTokenCount : Option Nat)
    (s : GeminiStreamState) : GeminiStreamState :=
  { s with
    history :=
      s.history ++ [HistoryItemData.info (compressionInfoText originalTokenCount newTokenCount)] }

/-- The `for await (const event of stream)` loop of
`processGeminiStreamEvents` (source lines 451–487): dispatch each event in
arrival order, threading the content buffer and accumulating tool-call
requests. -/
def processStreamLoop (split : List Char → Nat) (events : List GeminiEvent)
    (buffer : List Char) (reqs : List ToolCallRequestInfo)
    (s : GeminiStreamState) :
    List Char × List ToolCallRequestInfo × GeminiStreamState :=
  match events with
  | [] => (buffer, reqs, s)
  | e :: rest =>
    match e with
    | .thought v =>
      processStreamLoop split rest buffer reqs { s with thought := some v }
    | .content v =>
      let (b1, s1) := handleContentEvent split v buffer s
      processStreamLoop split rest b1 reqs s1
    | .toolCallRequest r =>
      processStreamLoop split rest buffer (reqs ++ [r]) s
    | .userCancelled =>
      processStreamLoop split rest buffer reqs (handleUserCancelledEvent s)
    | .errorEv m =>
      processStreamLoop split rest buffer reqs (handleErrorEvent m s)
    | .chatCompressed o n =>
      processStreamLoop split rest buffer reqs (handleChatCompressionEvent o n s)
    | .usageMetadata v =>
      processStreamLoop split rest buffer reqs { s with usageLog := s.usageLog ++ [v] }
    | .toolCallConfirmation =>
      -- do nothing
      processStreamLoop split rest buffer reqs s
    | .toolCallResponse =>
      -- do nothing
      processStreamLoop split rest buffer reqs s

/-- `processGeminiStreamEvents` (source lines 443–501): drain the stream,
then, if any tool-call requests were accumulated, hand them to the external
Tool Scheduler as one batch together with the turn's abort signal; always
reports `Completed` (cancellation and failures surface as exceptions of the
enclosing `try`). -/
def processGeminiStreamEvents (split : List Char → Nat)
    (events : List GeminiEvent) (signal : Nat) (s : GeminiStreamState) :
    GeminiStreamState × StreamProcessingStatus :=
  let (_, toolCallRequests, s1) := processStreamLoop split events [] [] s
  let s2 :=
    if toolCallRequests.length > 0 then
      { s1 with scheduledBatches := s1.scheduledBatches ++ [(toolCallRequests, signal)] }
    else s1
  (s2, StreamProcessingStatus.Completed)

/-- The `useInput` handler (source lines 190–210): on an escape keypress
while the derived streaming state is `Responding` and the turn has not
already been cancelled, set the per-turn cancellation flag, signal the abort
controller (if one is present), flush any pending display item, append the
"Request cancelled." notice, clear the pending item and stop responding.
Any other input, any other streaming state, or an already-cancelled turn is
a no-op. -/
def useInputEscape (escape : Bool) (s : GeminiStreamState) :
    GeminiStreamState :=
  if streamingState s.isResponding s.toolCalls = StreamingState.Responding ∧
      escape then
    if s.turnCancelled then s
    else
      let s1 :=
        { s with
          turnCancelled := true
          abortSignalled := if s.hasAbortController then true else s.abortSignalled }
      let s2 :=
        match s1.pendingItem with
        | some p => { s1 with history := s1.history ++ [p] }
        | none => s1
      { s2 with
        history := s2.history ++ [HistoryItemData.info "Request cancelled."]
        pendingItem := none
        isResponding := false }
  else s

/-- Modelled from the spec: `markToolsAsSubmitted` is provided by
`useReactToolScheduler`, which is not among the sources.  Spec §6 gives the
scheduler operation `markSubmitted(callIds: string[])`, which marks the
given tracked tool calls as having had their responses submitted
(`responseSubmittedToGemini`). -/
def markToolsAsSubmitted (callIds : List String) (s : GeminiStreamState) :
    GeminiStreamState :=
  { s with
    toolCalls := s.toolCalls.map fun tc =>
      if tc.callId ∈ callIds then
        { tc with responseSubmittedToGemini := true }
      else tc }

/-- The filter of the tool-completion `useEffect` (source lines 633–639):
tool calls in a terminal status whose response has not yet been submitted. -/
def completedAndUnsubmittedTools (toolCalls : List TrackedToolCall) :
    List TrackedToolCall :=
  toolCalls.filter fun tc =>
    (tc.status == ToolStatus.success || tc.status == ToolStatus.error ||
      tc.status == ToolStatus.cancelled) &&
    !tc.responseSubmittedToGemini

/-- The tool-completion `useEffect` body (source lines 630–659): if any
terminal, unsubmitted tool calls exist, collect their response payloads,
mark them submitted, re-enter `submitQuery` as a continuation with the
merged payload, and (as in the source) mark them submitted a second time. -/
def toolCompletionEffect (s : GeminiStreamState) :
    GeminiStreamState × List SubmitAction :=
  let completed := completedAndUnsubmittedTools s.toolCalls
  if completed.length > 0 then
    let toolParts := completed.map fun tool => tool.responseParts
    let s1 := markToolsAsSubmitted (completed.map fun tool => tool.callId) s
    let s2 := markToolsAsSubmitted (completed.map fun tool => tool.callId) s1
    (s2,
      [SubmitAction.resubmit (PartListUnion.array (mergePartListUnions toolParts)) true])
  else (s, [])

/-- The outcome of the external slash-command processor for this query
(out-of-scope collaborator, §6). -/
inductive SlashOutcome : Type
  | handled
  | notHandled
  | scheduleTool (req : Option ToolCallRequestInfo)
deriving DecidableEq

/-- The decisions of the external collaborators consulted by
`prepareQueryForGemini` for this query: the slash-command processor, shell
mode, and the at-command processor (all out-of-scope collaborators, §6). -/
structure PrepEnv : Type where
  slash : SlashOutcome
  shellModeActive : Bool
  shellHandled : Bool
  isAtCmd : Bool
  atShouldProceed : Bool
  atProcessedQuery : Option PartListUnion
deriving DecidableEq

/-- JS `String.prototype.trim()` over the character list: drop leading and
trailing whitespace. -/
def trimChars (l : List Char) : List Char :=
  ((l.dropWhile Char.isWhitespace).reverse.dropWhile Char.isWhitespace).reverse

/-- JS `String.prototype.trim()`. -/
def strTrim (s : String) : String := String.mk (trimChars s.data)

/-- Helper for `splitLines`: accumulate the current line (reversed). -/
def splitLinesAux : List Char → List Char → List String
  | [], acc => [String.mk acc.reverse]
  | c :: cs, acc =>
    if c = '\n' then String.mk acc.reverse :: splitLinesAux cs []
    else splitLinesAux cs (c :: acc)

/-- JS `String.prototype.split('\n')`. -/
def splitLines (q : String) : List String := splitLinesAux q.data []

/-- `prepareQueryForGemini` (source lines 212–311): returns
`{queryToSend, shouldProceed}` and the state effects (committing the user
message, or scheduling a slash-command tool call with the turn's abort
signal). -/
def prepareQueryForGemini (env : PrepEnv) (query : PartListUnion)
    (abortToken : Nat) (s : GeminiStreamState) :
    (Option PartListUnion × Bool) × GeminiStreamState :=
  if s.turnCancelled then ((none, false), s)
  else
    match query with
    | PartListUnion.single (PartItem.text q) =>
      if (strTrim q).length = 0 then ((none, false), s)
      else
        let trimmedQuery := strTrim q
        match env.slash with
        | SlashOutcome.handled => ((none, false), s)
        | SlashOutcome.scheduleTool req =>
          (match req with
           | some r =>
             ((none, false),
               { s with scheduledBatches := s.scheduledBatches ++ [([r], abortToken)] })
           | none => ((none, false), s))
        | SlashOutcome.notHandled =>
          if env.shellModeActive ∧ env.shellHandled then ((none, false), s)
          else if env.isAtCmd then
            if ¬env.atShouldProceed then ((none, false), s)
            else
              match env.atProcessedQuery with
              | some pq => ((some pq, true), s)
              | none => ((none, false), s)
          else
            ((some (PartListUnion.single (PartItem.text trimmedQuery)), true),
              { s with history := s.history ++ [HistoryItemData.user trimmedQuery] })
    | other => ((some other, true), s)

/-- The `finally` block of `submitQuery` (source lines 589–611): flush any
pending display item, mark the turn inactive, drop the abort controller,
then — only when the turn was not cancelled, no exception was raised, the
stream completed, no tool calls are outstanding and the queue is non-empty —
dequeue the oldest queued message and re-submit it as a new
non-continuation turn. -/
def submitQueryFinally (hasError : Bool) (status : StreamProcessingStatus)
    (s : GeminiStreamState) : GeminiStreamState × List SubmitAction :=
  let s1 :=
    match s.pendingItem with
    | some p => { s with history := s.history ++ [p], pendingItem := none }
    | none => s
  let s2 := { s1 with isResponding := false, hasAbortController := false }
  if ¬s2.turnCancelled ∧ ¬hasError ∧ status = StreamProcessingStatus.Completed ∧
      s2.toolCalls.length = 0 ∧ 0 < s2.messageQueue.length then
    ({ s2 with messageQueue := s2.messageQueue.tail },
      [SubmitAction.resubmit
        (PartListUnion.single (PartItem.text (s2.messageQueue.headD "")))
        false])
  else (s2, [])

/-- The exception raised (if any) inside `submitQuery`'s `try` block after
the given prefix of stream events was delivered: an `UnauthorizedError`, an
`ERR_CANCELED` abort, or any other failure. -/
inductive ExcKind : Type
  | unauthorized
  | errCanceled
  | other (msg : String)
deriving DecidableEq

/-- `query.split('\n').filter((q) => q.trim().length > 0)`. -/
def splitNonBlankLines (q : String) : List String :=
  (splitLines q).filter fun l => 0 < (strTrim l).length

/-- `submitQuery` (source lines 503–628), one call under explicit-state
semantics.  Inputs beyond the query are the environment the call runs
against: the collaborator decisions for preprocessing (`env`), the stream
events delivered for this turn (`events`), and the exception (if any)
raised inside the `try` block after those events (`exc`).  Fire-and-forget
recursive calls (`void submitQuery(...)`) are returned as `SubmitAction`s.

Control flow, as in the source: (1) if a turn is active and this is not a
continuation, enqueue non-blank lines of textual input and return; (2) start
a new turn (session-stats event, reset cancellation flag, fresh abort
controller); (3) if the queue is non-empty and this is not a continuation,
dequeue the oldest entry and re-submit it, superseding the caller's query;
(4) preprocess; on "do not proceed", stop responding and, if the queue is
non-empty, dequeue and re-submit the next entry; (5) otherwise open the
stream, process its events, map exceptions, and (6) run the `finally`
block. -/
def submitQuery (split : List Char → Nat) (env : PrepEnv)
    (events : List GeminiEvent) (exc : Option ExcKind)
    (query : PartListUnion) (isContinuation : Bool)
    (s : GeminiStreamState) : GeminiStreamState × List SubmitAction :=
  if (streamingState s.isResponding s.toolCalls = StreamingState.Responding ∨
      streamingState s.isResponding s.toolCalls = StreamingState.WaitingForConfirmation) ∧
      ¬isContinuation then
    match query with
    | PartListUnion.single (PartItem.text q) =>
      let queries := splitNonBlankLines q
      if queries.length > 0 then
        ({ s with messageQueue := s.messageQueue ++ queries }, [])
      else (s, [])
    | _ => (s, [])
  else
    -- Start of a new turn.
    let s := { s with turnCounter := s.turnCounter + 1 }
    let s := { s with turnCancelled := false }
    let tok := s.nextAbortToken
    let s :=
      { s with
        hasAbortController := true
        abortSignalled := false
        currentAbortToken := tok
        nextAbortToken := tok + 1 }
    if 0 < s.messageQueue.length ∧ ¬isContinuation then
      ({ s with messageQueue := s.messageQueue.tail },
        [SubmitAction.resubmit
          (PartListUnion.single (PartItem.text (s.messageQueue.headD ""))) false])
    else
      let s := { s with isResponding := true, thought := none }
      let pr := prepareQueryForGemini env query tok s
      let s := pr.2
      if ¬pr.1.2 then
        let s := { s with isResponding := false }
        if 0 < s.messageQueue.length then
          ({ s with messageQueue := s.messageQueue.tail },
            [SubmitAction.resubmit
              (PartListUnion.single (PartItem.text (s.messageQueue.headD ""))) false])
        else (s, [])
      else
        let s := { s with streamsOpened := s.streamsOpened + 1 }
        match exc with
        | none =>
          let ps := processGeminiStreamEvents split events tok s
          submitQueryFinally false ps.2 ps.1
        | some ExcKind.unauthorized =>
          -- the stream iteration was aborted: the batch-scheduling tail of
          -- processGeminiStreamEvents is not reached.
          let ls := processStreamLoop split events [] [] s
          submitQueryFinally true StreamProcessingStatus.Completed
            { ls.2.2 with authErrors := ls.2.2.authErrors + 1 }
        | some ExcKind.errCanceled =>
          let ls := processStreamLoop split events [] [] s
          submitQueryFinally true StreamProcessingStatus.UserCancelled ls.2.2
        | some (ExcKind.other m) =>
          let ls := processStreamLoop split events [] [] s
          submitQueryFinally true StreamProcessingStatus.Completed
            (handleErrorEvent m ls.2.2)

/-! ## Example values used by concrete witnesses -/

/-- A quiescent base state: empty queue, no turn, empty history. -/
def baseState : GeminiStreamState :=
  { messageQueue := []
    turnCancelled := false
    isResponding := false
    thought := none
    pendingItem := none
    history := []
    toolCalls := []
    hasAbortController := false
    abortSignalled := false
    currentAbortToken := 0
    nextAbortToken := 1
    turnCounter := 0
    streamsOpened := 0
    scheduledBatches := []
    usageLog := []
    authErrors := 0 }

/-- Collaborator decisions for a plain query: no slash command, no shell
mode, no at-command. -/
def plainEnv : PrepEnv :=
  { slash := SlashOutcome.notHandled
    shellModeActive := false
    shellHandled := false
    isAtCmd := false
    atShouldProceed := true
    atProcessedQuery := none }

/-- A splitter that never flushes: the split point is always the whole
buffer.  Satisfies the spec contract. -/
def splitWhole : List Char → Nat := fun b => b.length

theorem splitWhole_contract : SplitContract splitWhole := fun _ => Nat.le_refl _

/-! ## Theorems for the claims -/

/-- C4: the derived streaming state is a pure function of the turn-active
flag and the tracked tool-call statuses: it is `WaitingForConfirmation` iff
some tracked tool call is awaiting approval; else `Responding` iff the turn
is actively streaming, or some tool call is executing, scheduled or
validating, or some tool call is terminal with `responseSubmittedToGemini`
false; else `Idle`. -/
theorem C4_streamingState_derivation (r : Bool) (tcs : List TrackedToolCall) :
    (streamingState r tcs = StreamingState.WaitingForConfirmation ↔
      ∃ tc ∈ tcs, tc.status = ToolStatus.awaitingApproval) ∧
    (streamingState r tcs = StreamingState.Responding ↔
      (¬∃ tc ∈ tcs, tc.status = ToolStatus.awaitingApproval) ∧
      (r = true ∨ ∃ tc ∈ tcs,
        tc.status = ToolStatus.executing ∨ tc.status = ToolStatus.scheduled ∨
        tc.status = ToolStatus.validating ∨
        ((tc.status = ToolStatus.success ∨ tc.status = ToolStatus.error ∨
          tc.status = ToolStatus.cancelled) ∧
          tc.responseSubmittedToGemini = false))) ∧
    (streamingState r tcs = StreamingState.Idle ↔
      (¬∃ tc ∈ tcs, tc.status = ToolStatus.awaitingApproval) ∧
      ¬(r = true ∨ ∃ tc ∈ tcs,
        tc.status = ToolStatus.executing ∨ tc.status = ToolStatus.scheduled ∨
        tc.status = ToolStatus.validating ∨
        ((tc.status = ToolStatus.success ∨ tc.status = ToolStatus.error ∨
          tc.status = ToolStatus.cancelled) ∧
          tc.responseSubmittedToGemini = false))) := by
  have hA : (tcs.any fun tc => tc.status == ToolStatus.awaitingApproval) = true ↔
      ∃ tc ∈ tcs, tc.status = ToolStatus.awaitingApproval := by
    simp [List.any_eq_true]
  have hB : (r ||
      (tcs.any fun tc =>
        tc.status == ToolStatus.executing ||
        tc.status == ToolStatus.scheduled ||
        tc.status == ToolStatus.validating ||
        ((tc.status == ToolStatus.success ||
          tc.status == ToolStatus.error ||
          tc.status == ToolStatus.cancelled) &&
          !tc.responseSubmittedToGemini))) = true ↔
      (r = true ∨ ∃ tc ∈ tcs,
        tc.status = ToolStatus.executing ∨ tc.status = ToolStatus.scheduled ∨
        tc.status = ToolStatus.validating ∨
        ((tc.status = ToolStatus.success ∨ tc.status = ToolStatus.error ∨
          tc.status = ToolStatus.cancelled) ∧
          tc.responseSubmittedToGemini = false)) := by
    simp [List.any_eq_true, or_assoc, and_assoc, Bool.not_eq_true']
  cases h1 : (tcs.any fun tc => tc.status == ToolStatus.awaitingApproval) with
  | true =>
    have hs : streamingState r tcs = StreamingState.WaitingForConfirmation := by
      unfold streamingState; simp [h1]
    exact ⟨iff_of_true hs (hA.mp h1),
      iff_of_false (by rw [hs]; decide) (fun hc => hc.1 (hA.mp h1)),
      iff_of_false (by rw [hs]; decide) (fun hc => hc.1 (hA.mp h1))⟩
  | false =>
    have hnA : ¬∃ tc ∈ tcs, tc.status = ToolStatus.awaitingApproval :=
      fun hex => by simp [hA.mpr hex] at h1
    cases h2 : (r ||
        (tcs.any fun tc =>
          tc.status == ToolStatus.executing ||
          tc.status == ToolStatus.scheduled ||
          tc.status == ToolStatus.validating ||
          ((tc.status == ToolStatus.success ||
            tc.status == ToolStatus.error ||
            tc.status == ToolStatus.cancelled) &&
            !tc.responseSubmittedToGemini))) with
    | true =>
      have hs : streamingState r tcs = StreamingState.Responding := by
        unfold streamingState; simp only [h1, h2]; simp
      exact ⟨iff_of_false (by rw [hs]; decide) hnA,
        iff_of_true hs ⟨hnA, hB.mp h2⟩,
        iff_of_false (by rw [hs]; decide) (fun hc => hc.2 (hB.mp h2))⟩
    | false =>
      have hnB : ¬(r = true ∨ ∃ tc ∈ tcs,
          tc.status = ToolStatus.executing ∨ tc.status = ToolStatus.scheduled ∨
          tc.status = ToolStatus.validating ∨
          ((tc.status = ToolStatus.success ∨ tc.status = ToolStatus.error ∨
            tc.status = ToolStatus.cancelled) ∧
            tc.responseSubmittedToGemini = false)) :=
        fun hx => by simp [hB.mpr hx] at h2
      have hs : streamingState r tcs = StreamingState.Idle := by
        unfold streamingState; simp [h1, h2]
      exact ⟨iff_of_false (by rw [hs]; decide) hnA,
        iff_of_false (by rw [hs]; decide) (fun hc => hnB hc.2),
        iff_of_true hs ⟨hnA, hnB⟩⟩

/-- C1: a non-continuation `submitQuery` call while a turn is active
(derived streaming state `Responding` or `WaitingForConfirmation`) opens no
stream and resets no turn state; textual input is split on newlines with
every non-blank line appended to the Message Queue in order (so no user
input is silently dropped), and no re-entry action is emitted. -/
theorem C1_submitQuery_busy_enqueues (split : List Char → Nat) (env : PrepEnv)
    (events : List GeminiEvent) (exc : Option ExcKind) (q : String)
    (s : GeminiStreamState)
    (hbusy : streamingState s.isResponding s.toolCalls = StreamingState.Responding ∨
      streamingState s.isResponding s.toolCalls = StreamingState.WaitingForConfirmation) :
    submitQuery split env events exc (PartListUnion.single (PartItem.text q)) false s =
      ({ s with messageQueue := s.messageQueue ++ splitNonBlankLines q }, []) ∧
    (∀ l ∈ splitNonBlankLines q,
      l ∈ (submitQuery split env events exc
        (PartListUnion.single (PartItem.text q)) false s).1.messageQueue) ∧
    (∀ query : PartListUnion,
      (submitQuery split env events exc query false s).1.streamsOpened = s.streamsOpened ∧
      (submitQuery split env events exc query false s).1.turnCounter = s.turnCounter ∧
      (submitQuery split env events exc query false s).1.turnCancelled = s.turnCancelled ∧
      (submitQuery split env events exc query false s).1.hasAbortController = s.hasAbortController ∧
      (submitQuery split env events exc query false s).1.history = s.history ∧
      (submitQuery split env events exc query false s).2 = []) := by
  have hcond : ((streamingState s.isResponding s.toolCalls = StreamingState.Responding ∨
      streamingState s.isResponding s.toolCalls = StreamingState.WaitingForConfirmation) ∧
      ¬(false : Bool)) := ⟨hbusy, by simp⟩
  have hmain : submitQuery split env events exc
      (PartListUnion.single (PartItem.text q)) false s =
      ({ s with messageQueue := s.messageQueue ++ splitNonBlankLines q }, []) := by
    unfold submitQuery
    rw [if_pos hcond]
    by_cases hq : (splitNonBlankLines q).length > 0
    · simp [hq]
    · have : splitNonBlankLines q = [] := by
        cases h : splitNonBlankLines q with
        | nil => rfl
        | cons a l => rw [h] at hq; simp at hq
      simp [hq, this]
  refine ⟨hmain, ?_, ?_⟩
  · intro l hl
    rw [hmain]
    exact List.mem_append_right _ hl
  · intro query
    unfold submitQuery
    rw [if_pos hcond]
    cases query with
    | single p =>
      cases p with
      | text t =>
        by_cases hq : (splitNonBlankLines t).length > 0 <;> simp [hq]
      | data d => simp
    | array ps => simp

/-- Witness for C1 at a concrete busy state and the input `"a\n \nb"`. -/
theorem C1_submitQuery_busy_enqueues_witness :
    submitQuery splitWhole plainEnv [] none
      (PartListUnion.single (PartItem.text "a\n \nb")) false
      { baseState with isResponding := true } =
      ({ baseState with isResponding := true, messageQueue := ["a", "b"] }, []) := by
  have h := (C1_submitQuery_busy_enqueues splitWhole plainEnv [] none "a\n \nb"
    { baseState with isResponding := true } (Or.inl (by decide))).1
  rw [h]
  decide

/-- C9: a non-continuation `submitQuery` call while no turn is active and
the Message Queue is non-empty dequeues the oldest entry and re-enters with
that entry, returning early: the result is independent of the caller's
query (it is superseded), no stream is opened, and nothing beyond the
new-turn bookkeeping and the dequeue happens. -/
theorem C9_submitQuery_idle_dequeues (split : List Char → Nat) (env : PrepEnv)
    (events : List GeminiEvent) (exc : Option ExcKind) (q : PartListUnion)
    (m : String) (rest : List String) (s : GeminiStreamState)
    (hidle : streamingState s.isResponding s.toolCalls = StreamingState.Idle)
    (hq : s.messageQueue = m :: rest) :
    submitQuery split env events exc q false s =
      ({ s with
          turnCounter := s.turnCounter + 1
          turnCancelled := false
          hasAbortController := true
          abortSignalled := false
          currentAbortToken := s.nextAbortToken
          nextAbortToken := s.nextAbortToken + 1
          messageQueue := rest },
        [SubmitAction.resubmit (PartListUnion.single (PartItem.text m)) false]) ∧
    (∀ q' : PartListUnion,
      submitQuery split env events exc q' false s =
        submitQuery split env events exc q false s) ∧
    (submitQuery split env events exc q false s).1.streamsOpened = s.streamsOpened ∧
    (submitQuery split env events exc q false s).1.history = s.history := by
  have hnb : ¬((streamingState s.isResponding s.toolCalls = StreamingState.Responding ∨
      streamingState s.isResponding s.toolCalls = StreamingState.WaitingForConfirmation) ∧
      ¬(false : Bool)) := by
    rw [hidle]; rintro ⟨h | h, -⟩ <;> exact StreamingState.noConfusion h
  have hmain : ∀ q' : PartListUnion, submitQuery split env events exc q' false s =
      ({ s with
          turnCounter := s.turnCounter + 1
          turnCancelled := false
          hasAbortController := true
          abortSignalled := false
          currentAbortToken := s.nextAbortToken
          nextAbortToken := s.nextAbortToken + 1
          messageQueue := rest },
        [SubmitAction.resubmit (PartListUnion.single (PartItem.text m)) false]) := by
    intro q'
    unfold submitQuery
    rw [if_neg hnb]
    have hqpos : 0 < ({ s with
        turnCounter := s.turnCounter + 1
        turnCancelled := false
        hasAbortController := true
        abortSignalled := false
        currentAbortToken := s.nextAbortToken
        nextAbortToken := s.nextAbortToken + 1 } : GeminiStreamState).messageQueue.length := by
      simp [hq]
    simp only [hq]
    simp
  exact ⟨hmain q, fun q' => (hmain q').trans (hmain q).symm,
    by rw [hmain q], by rw [hmain q]⟩

/-- Witness for C9: while idle with queue `["a", "b"]`, submitting `"x"`
pops `"a"` for re-entry and never processes `"x"`. -/
theorem C9_submitQuery_idle_dequeues_witness :
    submitQuery splitWhole plainEnv [] none
      (PartListUnion.single (PartItem.text "x")) false
      { baseState with messageQueue := ["a", "b"] } =
      ({ baseState with
          messageQueue := ["b"]
          turnCounter := 1
          hasAbortController := true
          currentAbortToken := 1
          nextAbortToken := 2 },
        [SubmitAction.resubmit (PartListUnion.single (PartItem.text "a")) false]) := by
  have h := (C9_submitQuery_idle_dequeues splitWhole plainEnv [] none
    (PartListUnion.single (PartItem.text "x")) "a" ["b"]
    { baseState with messageQueue := ["a", "b"] } (by decide) (by decide)).1
  rw [h]
  decide

/-- C3: the `finally` block of a completing turn flushes any still-pending
display item into committed history, marks the turn inactive, and dequeues
and re-submits the oldest queued message as a new non-continuation turn
exactly when the turn was not cancelled, raised no error, completed its
stream, left no tool calls outstanding, and the queue is non-empty;
otherwise it emits nothing and leaves the queue untouched. -/
theorem C3_submitQueryFinally_flush_and_fifo (hasError : Bool)
    (status : StreamProcessingStatus) (s : GeminiStreamState) :
    (submitQueryFinally hasError status s).1.pendingItem = none ∧
    (submitQueryFinally hasError status s).1.history =
      s.history ++ s.pendingItem.toList ∧
    (submitQueryFinally hasError status s).1.isResponding = false ∧
    ((submitQueryFinally hasError status s).2 ≠ [] ↔
      (s.turnCancelled = false ∧ hasError = false ∧
        status = StreamProcessingStatus.Completed ∧ s.toolCalls = [] ∧
        s.messageQueue ≠ [])) ∧
    (∀ m rest, s.messageQueue = m :: rest →
      s.turnCancelled = false → hasError = false →
      status = StreamProcessingStatus.Completed → s.toolCalls = [] →
      (submitQueryFinally hasError status s).2 =
        [SubmitAction.resubmit (PartListUnion.single (PartItem.text m)) false] ∧
      (submitQueryFinally hasError status s).1.messageQueue = rest) ∧
    ((s.turnCancelled = true ∨ hasError = true ∨
        status ≠ StreamProcessingStatus.Completed ∨ s.toolCalls ≠ [] ∨
        s.messageQueue = []) →
      (submitQueryFinally hasError status s).2 = [] ∧
      (submitQueryFinally hasError status s).1.messageQueue = s.messageQueue) := by
  unfold submitQueryFinally
  rcases s with ⟨mq, tcfl, ir, th, pend, hist, tcs, hac, asg, cat, nat', tctr, so, sb, ul, ae⟩
  cases pend with
  | none =>
    by_cases hcond : (¬(tcfl : Bool) ∧ ¬(hasError : Bool) ∧
        status = StreamProcessingStatus.Completed ∧
        (tcs : List TrackedToolCall).length = 0 ∧ 0 < (mq : List String).length)
    · obtain ⟨h1, h2, h3, h4, h5⟩ := hcond
      cases mq with
      | nil => simp at h5
      | cons m rest =>
        simp_all [List.length_eq_zero]
    · rw [if_neg hcond]
      refine ⟨rfl, by simp, rfl, ?_, ?_, fun _ => ⟨rfl, rfl⟩⟩
      · exact iff_of_false (by simp) (fun ⟨hc1, hc2, hc3, hc4, hc5⟩ =>
          hcond ⟨by simp [show tcfl = false from hc1], by simp [hc2], hc3,
            by simp [show tcs = [] from hc4],
            List.length_pos.mpr (show mq ≠ [] from hc5)⟩)
      · intro m rest hmq hc1 hc2 hc3 hc4
        exact absurd ⟨by simp [show tcfl = false from hc1], by simp [hc2], hc3,
          by simp [show tcs = [] from hc4],
          by simp [show mq = m :: rest from hmq]⟩ hcond
  | some p =>
    by_cases hcond : (¬(tcfl : Bool) ∧ ¬(hasError : Bool) ∧
        status = StreamProcessingStatus.Completed ∧
        (tcs : List TrackedToolCall).length = 0 ∧ 0 < (mq : List String).length)
    · obtain ⟨h1, h2, h3, h4, h5⟩ := hcond
      cases mq with
      | nil => simp at h5
      | cons m rest =>
        simp_all [List.length_eq_zero]
    · rw [if_neg hcond]
      refine ⟨rfl, by simp, rfl, ?_, ?_, fun _ => ⟨rfl, rfl⟩⟩
      · exact iff_of_false (by simp) (fun ⟨hc1, hc2, hc3, hc4, hc5⟩ =>
          hcond ⟨by simp [show tcfl = false from hc1], by simp [hc2], hc3,
            by simp [show tcs = [] from hc4],
            List.length_pos.mpr (show mq ≠ [] from hc5)⟩)
      · intro m rest hmq hc1 hc2 hc3 hc4
        exact absurd ⟨by simp [show tcfl = false from hc1], by simp [hc2], hc3,
          by simp [show tcs = [] from hc4],
          by simp [show mq = m :: rest from hmq]⟩ hcond

/-- Witness for C3 at a concrete completed turn: pending item flushed,
oldest message `"a"` dequeued and re-submitted. -/
theorem C3_submitQueryFinally_flush_and_fifo_witness :
    (submitQueryFinally false StreamProcessingStatus.Completed
        { baseState with
            messageQueue := ["a", "b"]
            isResponding := true
            pendingItem := some (HistoryItemData.gemini ['h']) }).2 =
      [SubmitAction.resubmit (PartListUnion.single (PartItem.text "a")) false] ∧
    (submitQueryFinally false StreamProcessingStatus.Completed
        { baseState with
            messageQueue := ["a", "b"]
            isResponding := true
            pendingItem := some (HistoryItemData.gemini ['h']) }).1.messageQueue = ["b"] := by
  exact (C3_submitQueryFinally_flush_and_fifo false StreamProcessingStatus.Completed
    { baseState with
        messageQueue := ["a", "b"]
        isResponding := true
        pendingItem := some (HistoryItemData.gemini ['h']) }).2.2.2.2.1
    "a" ["b"] (by decide) (by decide) (by decide) (by decide) (by decide)

/-- The tool-call requests carried by a list of stream events, in stream
order. -/
def streamToolRequests (events : List GeminiEvent) : List ToolCallRequestInfo :=
  events.filterMap fun e =>
    match e with
    | GeminiEvent.toolCallRequest r => some r
    | _ => none

theorem handleContentEvent_preserves (split : List Char → Nat)
    (v buf : List Char) (s : GeminiStreamState) :
    (handleContentEvent split v buf s).2.scheduledBatches = s.scheduledBatches ∧
    (handleContentEvent split v buf s).2.turnCancelled = s.turnCancelled ∧
    (handleContentEvent split v buf s).2.messageQueue = s.messageQueue := by
  unfold handleContentEvent contentSplitPhase
  repeat' split
  all_goals try simp_all
  all_goals repeat' split
  all_goals simp_all

theorem handleUserCancelledEvent_preserves (s : GeminiStreamState) :
    (handleUserCancelledEvent s).scheduledBatches = s.scheduledBatches ∧
    (handleUserCancelledEvent s).turnCancelled = s.turnCancelled ∧
    (handleUserCancelledEvent s).messageQueue = s.messageQueue := by
  by_cases hc : s.turnCancelled
  · simp [handleUserCancelledEvent, hc]
  · cases hp : s.pendingItem with
    | none => simp [handleUserCancelledEvent, hc, hp]
    | some p => cases p <;> simp [handleUserCancelledEvent, hc, hp]

theorem handleErrorEvent_preserves (msg : String) (s : GeminiStreamState) :
    (handleErrorEvent msg s).scheduledBatches = s.scheduledBatches ∧
    (handleErrorEvent msg s).turnCancelled = s.turnCancelled ∧
    (handleErrorEvent msg s).messageQueue = s.messageQueue := by
  cases hp : s.pendingItem <;> simp [handleErrorEvent, hp]

theorem processStreamLoop_preserves (split : List Char → Nat)
    (events : List GeminiEvent) (buffer : List Char)
    (reqs : List ToolCallRequestInfo) (s : GeminiStreamState) :
    (processStreamLoop split events buffer reqs s).2.2.scheduledBatches =
      s.scheduledBatches ∧
    (processStreamLoop split events buffer reqs s).2.2.turnCancelled =
      s.turnCancelled ∧
    (processStreamLoop split events buffer reqs s).2.2.messageQueue =
      s.messageQueue := by
  induction events generalizing buffer reqs s with
  | nil => exact ⟨rfl, rfl, rfl⟩
  | cons e rest ih =>
    cases e with
    | thought v => simpa [processStreamLoop] using ih _ _ _
    | content v =>
      have h := handleContentEvent_preserves split v buffer s
      have h2 := ih (handleContentEvent split v buffer s).1 reqs
        (handleContentEvent split v buffer s).2
      simp only [processStreamLoop]
      exact ⟨h2.1.trans h.1, h2.2.1.trans h.2.1, h2.2.2.trans h.2.2⟩
    | toolCallRequest r => simpa [processStreamLoop] using ih _ _ _
    | userCancelled =>
      have h := handleUserCancelledEvent_preserves s
      have h2 := ih buffer reqs (handleUserCancelledEvent s)
      simp only [processStreamLoop]
      exact ⟨h2.1.trans h.1, h2.2.1.trans h.2.1, h2.2.2.trans h.2.2⟩
    | errorEv m =>
      have h := handleErrorEvent_preserves m s
      have h2 := ih buffer reqs (handleErrorEvent m s)
      simp only [processStreamLoop]
      exact ⟨h2.1.trans h.1, h2.2.1.trans h.2.1, h2.2.2.trans h.2.2⟩
    | chatCompressed o n =>
      simpa [processStreamLoop, handleChatCompressionEvent] using ih _ _ _
    | usageMetadata v => simpa [processStreamLoop] using ih _ _ _
    | toolCallConfirmation => simpa [processStreamLoop] using ih _ _ _
    | toolCallResponse => simpa [processStreamLoop] using ih _ _ _

theorem processStreamLoop_reqs (split : List Char → Nat)
    (events : List GeminiEvent) (buffer : List Char)
    (reqs : List ToolCallRequestInfo) (s : GeminiStreamState) :
    (processStreamLoop split events buffer reqs s).2.1 =
      reqs ++ streamToolRequests events := by
  induction events generalizing buffer reqs s with
  | nil => simp [processStreamLoop, streamToolRequests]
  | cons e rest ih =>
    cases e <;>
      simp [processStreamLoop, streamToolRequests, List.filterMap_cons, ih]

/-- C7: during one stream, `ToolCallRequest` events are only accumulated
(the scheduler receives nothing while the loop runs); when the stream ends
the scheduler receives all accumulated requests in stream order as exactly
one batch paired with the turn's abort signal, and receives nothing when no
requests were accumulated. -/
theorem C7_toolcall_requests_one_batch (split : List Char → Nat)
    (events : List GeminiEvent) (signal : Nat) (s : GeminiStreamState)
    (buffer : List Char) (reqs : List ToolCallRequestInfo) :
    (processStreamLoop split events buffer reqs s).2.2.scheduledBatches =
      s.scheduledBatches ∧
    (processStreamLoop split events buffer reqs s).2.1 =
      reqs ++ streamToolRequests events ∧
    (processGeminiStreamEvents split events signal s).1.scheduledBatches =
      s.scheduledBatches ++
        (if streamToolRequests events = [] then []
         else [(streamToolRequests events, signal)]) ∧
    (processGeminiStreamEvents split events signal s).2 =
      StreamProcessingStatus.Completed := by
  refine ⟨(processStreamLoop_preserves split events buffer reqs s).1,
    processStreamLoop_reqs split events buffer reqs s, ?_, rfl⟩
  unfold processGeminiStreamEvents
  have hr := processStreamLoop_reqs split events [] [] s
  have hp := (processStreamLoop_preserves split events [] [] s).1
  simp only [hr, List.nil_append] at *
  by_cases hz : streamToolRequests events = []
  · simp [hz, hr, hp]
  · have hlen : 0 < (streamToolRequests events).length :=
      List.length_pos.mpr hz
    simp [hz, hr, hp, hlen]

/-- A concrete cancelled-turn state used by the C5 analysis. -/
def cancelledState : GeminiStreamState := { baseState with turnCancelled := true }

/-- C5 counterexample: with the per-turn cancellation flag already set,
an `Error` event still flushes/appends history, a `Thought` event still
updates the thought value, and a `ChatCompressed` event still appends an
info entry — so not every stream event after cancellation is a no-op. -/
theorem C5_counterexample_events_after_cancel :
    (processStreamLoop splitWhole [GeminiEvent.errorEv "boom"] [] []
        cancelledState).2.2.history ≠ cancelledState.history ∧
    (processStreamLoop splitWhole [GeminiEvent.thought "t"] [] []
        cancelledState).2.2.thought ≠ cancelledState.thought ∧
    (processStreamLoop splitWhole [GeminiEvent.chatCompressed none none] [] []
        cancelledState).2.2.history ≠ cancelledState.history := by
  refine ⟨?_, ?_, ?_⟩ <;> decide

/-- C5 (amended): the per-turn cancellation flag is never reset by stream
event processing (write-once within a turn), and after cancellation the
`Content` handler is a no-op on the state that also clears the local buffer,
and the `UserCancelled` handler is a no-op; `Thought`, `Error` and
`ChatCompressed` events, however, still produce their usual effects (see the
counterexample). -/
theorem C5_cancellation_suppression_amended (split : List Char → Nat)
    (events : List GeminiEvent) (v buffer : List Char)
    (reqs : List ToolCallRequestInfo) (s : GeminiStreamState) :
    (processStreamLoop split events buffer reqs s).2.2.turnCancelled =
      s.turnCancelled ∧
    (s.turnCancelled = true → handleContentEvent split v buffer s = ([], s)) ∧
    (s.turnCancelled = true → handleUserCancelledEvent s = s) := by
  refine ⟨(processStreamLoop_preserves split events buffer reqs s).2.1, ?_, ?_⟩
  · intro hc; simp [handleContentEvent, hc]
  · intro hc; simp [handleUserCancelledEvent, hc]

/-- Witness for the amended C5 at a concrete cancelled state. -/
theorem C5_cancellation_suppression_amended_witness :
    handleContentEvent splitWhole ['x'] ['b'] cancelledState =
      ([], cancelledState) ∧
    handleUserCancelledEvent cancelledState = cancelledState := by
  have h := C5_cancellation_suppression_amended splitWhole [] ['x'] ['b'] []
    cancelledState
  exact ⟨h.2.1 (by decide), h.2.2 (by decide)⟩

/-- A concrete state whose derived streaming state is
`WaitingForConfirmation`: one tracked tool call awaiting approval. -/
def waitingState : GeminiStreamState :=
  { baseState with
    toolCalls := [{ callId := "t1", status := ToolStatus.awaitingApproval,
                    responseSubmittedToGemini := false,
                    responseParts := PartListUnion.array [] }] }

/-- C8 counterexample: a turn is active (derived streaming state
`WaitingForConfirmation`) and not cancelled, yet the escape keypress has no
effect at all — in particular the cancellation flag is not set, contradicting
the claim that any active, uncancelled turn is cancelled by the input. -/
theorem C8_counterexample_waiting_escape_ignored :
    streamingState waitingState.isResponding waitingState.toolCalls =
      StreamingState.WaitingForConfirmation ∧
    waitingState.turnCancelled = false ∧
    useInputEscape true waitingState = waitingState := by
  refine ⟨by decide, by decide, by decide⟩

theorem useInputEscape_cancelled_noop (s : GeminiStreamState)
    (hc : s.turnCancelled = true) : useInputEscape true s = s := by
  unfold useInputEscape
  by_cases hcond : (streamingState s.isResponding s.toolCalls =
      StreamingState.Responding ∧ (true : Bool) = true)
  · rw [if_pos hcond, if_pos hc]
  · rw [if_neg hcond]

/-- C8 (amended): the escape keypress cancels the turn exactly when the
derived streaming state is `Responding` and the turn is not already
cancelled — setting the flag, signalling the abort controller when present,
flushing any pending display item, appending the cancellation notice and
stopping the response; in any other state (including
`WaitingForConfirmation`) or when already cancelled it has no effect, and
the handler is idempotent, so signalling cancel twice has the same
observable effect as once. -/
theorem C8_escape_cancellation_amended (s : GeminiStreamState) :
    (streamingState s.isResponding s.toolCalls = StreamingState.Responding →
      s.turnCancelled = false →
      useInputEscape true s =
        { s with
            turnCancelled := true
            abortSignalled := if s.hasAbortController then true else s.abortSignalled
            history := s.history ++ s.pendingItem.toList ++
              [HistoryItemData.info "Request cancelled."]
            pendingItem := none
            isResponding := false }) ∧
    ((streamingState s.isResponding s.toolCalls ≠ StreamingState.Responding ∨
        s.turnCancelled = true) →
      useInputEscape true s = s) ∧
    useInputEscape true (useInputEscape true s) = useInputEscape true s ∧
    useInputEscape false s = s := by
  have heff : streamingState s.isResponding s.toolCalls = StreamingState.Responding →
      s.turnCancelled = false →
      useInputEscape true s =
        { s with
            turnCancelled := true
            abortSignalled := if s.hasAbortController then true else s.abortSignalled
            history := s.history ++ s.pendingItem.toList ++
              [HistoryItemData.info "Request cancelled."]
            pendingItem := none
            isResponding := false } := by
    intro hresp hc
    unfold useInputEscape
    rw [if_pos ⟨hresp, rfl⟩, if_neg (by simp [hc])]
    cases hp : s.pendingItem <;> simp [hp]
  have hnoop : (streamingState s.isResponding s.toolCalls ≠ StreamingState.Responding ∨
      s.turnCancelled = true) → useInputEscape true s = s := by
    intro h
    unfold useInputEscape
    by_cases hcond : (streamingState s.isResponding s.toolCalls = StreamingState.Responding ∧
        (true : Bool) = true)
    · rw [if_pos hcond]
      rcases h with h | h
      · exact absurd hcond.1 h
      · rw [if_pos h]
    · rw [if_neg hcond]
  refine ⟨heff, hnoop, ?_, ?_⟩
  · by_cases hresp : streamingState s.isResponding s.toolCalls = StreamingState.Responding
    · by_cases hc : s.turnCancelled = true
      · simp only [hnoop (Or.inr hc)]
      · have hc' : s.turnCancelled = false := by
          cases hcv : s.turnCancelled
          · rfl
          · exact absurd hcv hc
        rw [heff hresp hc']
        exact useInputEscape_cancelled_noop _ rfl
    · simp only [hnoop (Or.inl hresp)]
  · unfold useInputEscape
    rw [if_neg (by rintro ⟨-, hx⟩; exact Bool.false_ne_true hx)]

/-- Witness for the amended C8 at a concrete responding state with a
pending item and a live abort controller. -/
theorem C8_escape_cancellation_amended_witness :
    useInputEscape true
      { baseState with
          isResponding := true
          hasAbortController := true
          pendingItem := some (HistoryItemData.gemini ['h']) } =
      { baseState with
          turnCancelled := true
          abortSignalled := true
          history := [HistoryItemData.gemini ['h'],
            HistoryItemData.info "Request cancelled."]
          pendingItem := none
          isResponding := false
          hasAbortController := true } := by
  have h := (C8_escape_cancellation_amended
    { baseState with
        isResponding := true
        hasAbortController := true
        pendingItem := some (HistoryItemData.gemini ['h']) }).1
    (by decide) (by decide)
  rw [h]
  decide

theorem toolCompletionEffect_of_done (s : GeminiStreamState)
    (h : completedAndUnsubmittedTools s.toolCalls = []) :
    toolCompletionEffect s = (s, []) := by
  unfold toolCompletionEffect
  rw [h]
  simp

/-- A terminal tracked tool call whose response was already submitted. -/
def submittedTool : TrackedToolCall :=
  { callId := "c1", status := ToolStatus.success,
    responseSubmittedToGemini := true, responseParts := PartListUnion.array [] }

/-- A terminal tracked tool call whose response is not yet submitted. -/
def unsubmittedTool : TrackedToolCall :=
  { callId := "c1", status := ToolStatus.success,
    responseSubmittedToGemini := false,
    responseParts := PartListUnion.array [PartItem.data "r"] }

/-- C2: the tool-completion observer's side effects are exactly-once per
tool call: a tracked call whose `responseSubmittedToGemini` flag is already
true is never collected for resubmission; after one run of the effect a
second run collects nothing and emits no continuation; and the (doubled)
`markToolsAsSubmitted` operation is idempotent. -/
theorem C2_toolcall_submission_exactly_once (s : GeminiStreamState) :
    (∀ tc ∈ s.toolCalls, tc.responseSubmittedToGemini = true →
      tc ∉ completedAndUnsubmittedTools s.toolCalls) ∧
    toolCompletionEffect (toolCompletionEffect s).1 =
      ((toolCompletionEffect s).1, []) ∧
    (∀ ids : List String,
      markToolsAsSubmitted ids (markToolsAsSubmitted ids s) =
        markToolsAsSubmitted ids s) := by
  refine ⟨?_, ?_, ?_⟩
  · intro tc _ hsub hmem
    have := List.mem_filter.mp hmem
    simp [hsub] at this
  · have hdone : completedAndUnsubmittedTools
        ((toolCompletionEffect s).1).toolCalls = [] := by
      by_cases hz : (completedAndUnsubmittedTools s.toolCalls).length > 0
      · unfold toolCompletionEffect
        rw [if_pos hz]
        simp only [markToolsAsSubmitted]
        rw [List.map_map]
        set ids := (completedAndUnsubmittedTools s.toolCalls).map
          (fun tool => tool.callId) with hids
        unfold completedAndUnsubmittedTools
        rw [List.filter_eq_nil_iff]
        intro a ha
        obtain ⟨tc, htc, hfa⟩ := List.mem_map.mp ha
        by_cases hin : tc.callId ∈ ids
        · have haeq : a = { tc with responseSubmittedToGemini := true } := by
            rw [← hfa]; simp [Function.comp, hin]
          rw [haeq]
          simp
        · have haeq : a = tc := by rw [← hfa]; simp [Function.comp, hin]
          intro hpa
          rw [haeq] at hpa
          have hmem2 : tc ∈ completedAndUnsubmittedTools s.toolCalls :=
            List.mem_filter.mpr ⟨htc, hpa⟩
          have hmem3 : tc.callId ∈ ids := by
            rw [hids]
            exact List.mem_map.mpr ⟨tc, hmem2, rfl⟩
          exact hin hmem3
      · have hnil : completedAndUnsubmittedTools s.toolCalls = [] := by
          cases h : completedAndUnsubmittedTools s.toolCalls with
          | nil => rfl
          | cons a l => rw [h] at hz; simp at hz
        rw [toolCompletionEffect_of_done s hnil]
        exact hnil
    exact toolCompletionEffect_of_done _ hdone
  · intro ids
    unfold markToolsAsSubmitted
    simp only [List.map_map]
    congr 1
    apply List.map_congr_left
    intro tc _
    by_cases hin : tc.callId ∈ ids <;> simp [Function.comp, hin]

/-- Witness for C2: one already-submitted call is never collected, and the
effect is a no-op the second time. -/
theorem C2_toolcall_submission_exactly_once_witness :
    submittedTool ∉ completedAndUnsubmittedTools [submittedTool] ∧
    toolCompletionEffect
        (toolCompletionEffect
          { baseState with toolCalls := [unsubmittedTool] }).1 =
      ((toolCompletionEffect
          { baseState with toolCalls := [unsubmittedTool] }).1, []) := by
  refine ⟨(C2_toolcall_submission_exactly_once
      { baseState with toolCalls := [submittedTool] }).1 _ (by decide) (by decide),
    (C2_toolcall_submission_exactly_once
      { baseState with toolCalls := [unsubmittedTool] }).2.1⟩

/-- C6: for a streaming model-text buffer (pending item of gemini kind,
turn not cancelled), the split point satisfies `0 ≤ i ≤ length nb` for the
accumulated buffer `nb = buf ++ delta`; when `i = length nb` nothing is
flushed and the whole buffer remains the live pending item; when
`i < length nb` exactly `nb[0:i]` is appended to committed history and
`nb[i:]` becomes the new live pending buffer, which is also the return
value carried into the next `Content` event by the stream loop. -/
theorem C6_content_split_behaviour (split : List Char → Nat)
    (hsplit : SplitContract split) (v buf : List Char)
    (s : GeminiStreamState) (p : HistoryItemData)
    (hc : s.turnCancelled = false) (hp : s.pendingItem = some p)
    (hgem : p.isGeminiKind = true) :
    split (buf ++ v) ≤ (buf ++ v).length ∧
    (split (buf ++ v) = (buf ++ v).length →
      handleContentEvent split v buf s =
        (buf ++ v,
          { s with pendingItem := some (setGeminiText s.pendingItem (buf ++ v)) })) ∧
    (split (buf ++ v) < (buf ++ v).length →
      handleContentEvent split v buf s =
        ((buf ++ v).drop (split (buf ++ v)),
          { s with
              history := s.history ++
                [setGeminiText s.pendingItem ((buf ++ v).take (split (buf ++ v)))]
              pendingItem := some (HistoryItemData.geminiContent
                ((buf ++ v).drop (split (buf ++ v)))) })) ∧
    (∀ rest reqs,
      processStreamLoop split (GeminiEvent.content v :: rest) buf reqs s =
        processStreamLoop split rest (handleContentEvent split v buf s).1 reqs
          (handleContentEvent split v buf s).2) := by
  have hfresh : (match s.pendingItem with
      | some p => !p.isGeminiKind
      | none => true) = false := by
    rw [hp]; simp [hgem]
  refine ⟨hsplit (buf ++ v), ?_, ?_, fun rest reqs => rfl⟩
  · intro heq
    unfold handleContentEvent
    rw [if_neg (by simp [hc])]
    rw [hfresh, if_neg Bool.false_ne_true]
    unfold contentSplitPhase
    rw [if_pos heq]
  · intro hlt
    unfold handleContentEvent
    rw [if_neg (by simp [hc])]
    rw [hfresh, if_neg Bool.false_ne_true]
    unfold contentSplitPhase
    rw [if_neg (Nat.ne_of_lt hlt)]

/-- Witness for C6: with the never-flushing splitter and pending gemini
text, the accumulated buffer stays live. -/
theorem C6_content_split_behaviour_witness :
    handleContentEvent splitWhole ['b'] ['a']
      { baseState with pendingItem := some (HistoryItemData.gemini ['a']) } =
      (['a', 'b'],
        { baseState with pendingItem := some (HistoryItemData.gemini ['a', 'b']) }) := by
  have h := (C6_content_split_behaviour splitWhole splitWhole_contract ['b'] ['a']
    { baseState with pendingItem := some (HistoryItemData.gemini ['a']) }
    (HistoryItemData.gemini ['a']) (by decide) (by decide) (by decide)).2.1 (by decide)
  rw [h]
  decide

/-- C10: a `Content` event arriving while the pending display item is not
model text (absent, or of another kind) first flushes the existing pending
item (if any) to committed history, starts a fresh model-text pending item,
and discards the previously accumulated buffer: the split phase then runs
on exactly the new delta alone, so the result is independent of the old
buffer argument. -/
theorem C10_content_fresh_start (split : List Char → Nat) (v buf : List Char)
    (s : GeminiStreamState) (hc : s.turnCancelled = false)
    (hp : ∀ p, s.pendingItem = some p → p.isGeminiKind = false) :
    handleContentEvent split v buf s =
      contentSplitPhase split v
        { s with
            history := s.history ++ s.pendingItem.toList
            pendingItem := some (HistoryItemData.gemini []) } ∧
    (∀ buf' : List Char,
      handleContentEvent split v buf' s = handleContentEvent split v buf s) := by
  have hmain : ∀ b : List Char, handleContentEvent split v b s =
      contentSplitPhase split v
        { s with
            history := s.history ++ s.pendingItem.toList
            pendingItem := some (HistoryItemData.gemini []) } := by
    intro b
    unfold handleContentEvent
    rw [if_neg (by simp [hc])]
    cases hpe : s.pendingItem with
    | none => simp
    | some p =>
      have := hp p hpe
      simp [this]
  exact ⟨hmain buf, fun buf' => (hmain buf').trans (hmain buf).symm⟩

/-- Witness for C10: a pending info item is flushed and the buffer restarts
as the delta alone (the old buffer `['z']` is discarded). -/
theorem C10_content_fresh_start_witness :
    handleContentEvent splitWhole ['b'] ['z']
      { baseState with pendingItem := some (HistoryItemData.info "note") } =
      (['b'],
        { baseState with
            history := [HistoryItemData.info "note"]
            pendingItem := some (HistoryItemData.gemini ['b']) }) := by
  have h := (C10_content_fresh_start splitWhole ['b'] ['z']
    { baseState with pendingItem := some (HistoryItemData.info "note") }
    (by decide) (by intro p hp; cases hp; decide)).1
  rw [h]
  decide

end GeminiCLI
